import Mathlib

/-!
Verification of the file-reorganization engine of the Music-Cleanup
repository (`src/music_cleanup/organizer.py`) against its specification.

The organizer is embedded shallowly:
* a filesystem path is a list of components (`FPath`), absolute, with the
  root directory represented by `[]`;
* the on-disk state is `FS`: the set of existing regular files, the set of
  existing directories, and a set of paths on which directory creation is
  denied (the simulated permission errors of the spec's failure scenarios);
* every fallible Python operation (`Path.mkdir`, `shutil.move`,
  `shutil.copy2`) returns the new state together with an optional `PyErr`,
  mirroring the exception classes the source catches;
* the progress callback is modelled by the trace of `(completed, total)`
  pairs the engine emits.

All definitions are executable and structurally recursive, so concrete runs
evaluate by `decide` / `rfl`.
-/

/-- An absolute filesystem path as its list of components; `[]` is `/`. -/
abbrev FPath := List String

/-- Last path component (`Path.name` in the source); `""` for the root. -/
def pathName (p : FPath) : String := p.getLastD ""

/-- Parent directory (`Path.parent`). -/
def pathParent (p : FPath) : FPath := p.dropLast

/-- Rendering of a path as Python's `str(Path(...))`. -/
def pathStr (p : FPath) : String := "/" ++ String.intercalate "/" p

/-- Split a file name into `(stem, suffix)` chars following Python's
`PurePath.stem` / `PurePath.suffix`: the suffix starts at the last dot,
provided that dot is neither the first nor the last character. -/
def splitExtChars (cs : List Char) : List Char × List Char :=
  let rcs := cs.reverse
  let ext := rcs.takeWhile (fun c => c ≠ '.')
  if ext.length = rcs.length then (cs, [])
  else if ext.length = 0 then (cs, [])
  else if ext.length + 1 = rcs.length then (cs, [])
  else (cs.take (cs.length - ext.length - 1), '.' :: ext.reverse)

/-- `Path.stem` of the last component of a path. -/
def pathStem (p : FPath) : String := String.mk (splitExtChars (pathName p).toList).1

/-- `Path.suffix` of the last component of a path. -/
def pathSuffix (p : FPath) : String := String.mk (splitExtChars (pathName p).toList).2

/-- The Python exception classes the organizer catches
(`FileNotFoundError`, `NotADirectoryError`, `PermissionError`, `OSError`). -/
inductive PyErr where
  | permission (p : FPath)
  | fileExists (p : FPath)
  | fileNotFound (p : FPath)
  | notADirectory (p : FPath)
deriving DecidableEq

/-- Rendering of an exception as the `f"{exc}"` interpolation used in the
organizer's warning strings. -/
def PyErr.msg : PyErr → String
  | .permission p => "[Errno 13] Permission denied: " ++ pathStr p
  | .fileExists p => "[Errno 17] File exists: " ++ pathStr p
  | .fileNotFound p => "[Errno 2] No such file or directory: " ++ pathStr p
  | .notADirectory p => "[Errno 20] Not a directory: " ++ pathStr p

/-- The on-disk state: existing regular files, existing directories, and
paths whose creation is denied (simulated `PermissionError`). -/
structure FS where
  files : List FPath
  dirs : List FPath
  denied : List FPath
deriving DecidableEq

/-- `Path.exists()`: the path names an existing file or directory. -/
def FS.pathExists (fs : FS) (p : FPath) : Bool :=
  decide (p ∈ fs.files) || decide (p ∈ fs.dirs)

/-- The proper non-root prefixes of a path together with the path itself, in
increasing length: the directories `mkdir(parents=True)` creates top-down. -/
def ancestorsAsc (p : FPath) : List FPath :=
  (List.range p.length).map (fun i => p.take (i + 1))

/-- One-by-one directory creation for `mkdir(parents=True, exist_ok=True)`:
existing directories are kept, a file in the way or a denied path raises,
and directories already created before a failure persist (as they do on a
real filesystem). -/
def mkdirGo (fs : FS) : List FPath → FS × Option PyErr
  | [] => (fs, none)
  | q :: rest =>
    if q ∈ fs.dirs then mkdirGo fs rest
    else if q ∈ fs.files then
      (fs, some (if rest.isEmpty then PyErr.fileExists q else PyErr.notADirectory q))
    else if q ∈ fs.denied then (fs, some (PyErr.permission q))
    else mkdirGo { fs with dirs := fs.dirs ++ [q] } rest

/-- `Path.mkdir(parents=True, exist_ok=True)`. -/
def FS.mkdirParents (fs : FS) (p : FPath) : FS × Option PyErr :=
  mkdirGo fs (ancestorsAsc p)

/-- `shutil.move(src, tgt)`: the source file must exist and the target's
parent directory must exist; the file changes location. -/
def FS.moveFile (fs : FS) (src tgt : FPath) : FS × Option PyErr :=
  if src ∈ fs.files then
    if pathParent tgt ∈ fs.dirs then
      ({ fs with files := fs.files.erase src ++ [tgt] }, none)
    else (fs, some (PyErr.fileNotFound tgt))
  else (fs, some (PyErr.fileNotFound src))

/-- `shutil.copy2(src, tgt)`: like `moveFile` but the source remains. -/
def FS.copyFile (fs : FS) (src tgt : FPath) : FS × Option PyErr :=
  if src ∈ fs.files then
    if pathParent tgt ∈ fs.dirs then
      ({ fs with files := fs.files ++ [tgt] }, none)
    else (fs, some (PyErr.fileNotFound tgt))
  else (fs, some (PyErr.fileNotFound src))

/-- Whitespace for Python's `str.strip()` (ASCII range). -/
def pyIsSpace (c : Char) : Bool :=
  c == ' ' || c == '\t' || c == '\n' || c == '\r' ||
    decide (c.toNat = 11) || decide (c.toNat = 12)

/-- Python `str.strip()`. -/
def pyStrip (s : String) : String :=
  String.mk (((s.toList.dropWhile pyIsSpace).reverse.dropWhile pyIsSpace).reverse)

/-- Python `str.rstrip(".")`. -/
def rstripDots (s : String) : String :=
  String.mk ((s.toList.reverse.dropWhile (fun c => c == '.')).reverse)

/-- The character class of the source's `INVALID_CHARS` regular expression
`[<>:"/\\|?*\x00-\x1F]`. -/
def isInvalidChar (c : Char) : Bool :=
  c == '<' || c == '>' || c == ':' || c == '"' || c == '/' || c == '\\' ||
    c == '|' || c == '?' || c == '*' || decide (c.toNat ≤ 31)

/-- `sanitize_name` from the source: strip whitespace, strip trailing
periods, replace invalid characters by underscores, fall back to
`"Unknown"` when empty. -/
def sanitize_name (s : String) : String :=
  let v := rstripDots (pyStrip s)
  let v2 := String.mk (v.toList.map (fun c => if isInvalidChar c then '_' else c))
  if v2 = "" then "Unknown" else v2

/-- The fields of a `TrackRecord` read by the organizer (the dataclass's
other fields — sizes, tags, audio properties — are never consulted there). -/
structure TrackRecord where
  file_path : FPath
  relative_path : String
  artist : String
  album : String
deriving DecidableEq

/-- `target_path_for` from the source. -/
def target_path_for (r : TrackRecord) (destination_root : FPath) : FPath :=
  destination_root ++
    [sanitize_name r.artist,
     sanitize_name (if r.album = "" then "Miscellaneous" else r.album),
     pathName r.file_path]

/-- Decimal digit character. -/
def digitCh (d : Nat) : Char :=
  match d with
  | 0 => '0' | 1 => '1' | 2 => '2' | 3 => '3' | 4 => '4'
  | 5 => '5' | 6 => '6' | 7 => '7' | 8 => '8' | _ => '9'

/-- Fuelled big-endian decimal digits of `n` (empty for `0`). -/
def natDecAux : Nat → Nat → List Char
  | 0, _ => []
  | fuel + 1, n => if n = 0 then [] else natDecAux fuel (n / 10) ++ [digitCh (n % 10)]

/-- Decimal rendering of a natural number, as Python's `str(counter)`. -/
def natDecimal (n : Nat) : String :=
  if n = 0 then "0" else String.mk (natDecAux n n)

/-- The numbered candidate `parent / f"{stem} ({counter}){suffix}"` probed by
`_non_colliding_path`. -/
def collisionCandidate (parent : FPath) (stem sfx : String) (c : Nat) : FPath :=
  parent ++ [stem ++ " (" ++ natDecimal c ++ ")" ++ sfx]

/-- The probe loop of `_non_colliding_path`, fuelled: returns the first
candidate, counting up from `c`, that does not exist.  The fuel the caller
supplies is proved sufficient (`probeFrom_finds_least`), so the fuel-exhausted
branch is never taken. -/
def probeFrom (fs : FS) (parent : FPath) (stem sfx : String) : Nat → Nat → FPath
  | 0, c => collisionCandidate parent stem sfx c
  | fuel + 1, c =>
    if fs.pathExists (collisionCandidate parent stem sfx c) then
      probeFrom fs parent stem sfx fuel (c + 1)
    else collisionCandidate parent stem sfx c

/-- `_non_colliding_path` from the source. -/
def non_colliding_path (fs : FS) (path : FPath) : FPath :=
  if fs.pathExists path then
    probeFrom fs (pathParent path) (pathStem path) (pathSuffix path)
      (fs.files.length + fs.dirs.length + 1) 1
  else path

example : sanitize_name "AC/DC" = "AC_DC" := by decide
example : sanitize_name "   " = "Unknown" := by decide
example : sanitize_name "Trailing." = "Trailing" := by decide
example : natDecimal 207 = "207" := by decide
example : pathSuffix ["a", "b.tar.gz"] = ".gz" := by decide
example : pathStem ["a", "b.tar.gz"] = "b.tar" := by decide
example :
    non_colliding_path ⟨[["x", "a.mp3"], ["x", "a (1).mp3"]], [["x"]], []⟩ ["x", "a.mp3"]
      = ["x", "a (2).mp3"] := by decide

/-- The `SIDECAR_EXTENSIONS` allow-list from the source. -/
def SIDECAR_EXTENSIONS : List String :=
  [".jpg", ".jpeg", ".png", ".gif", ".bmp", ".webp", ".tif", ".tiff",
   ".nfo", ".cue", ".txt", ".m3u", ".m3u8", ".pdf"]

/-- Character-wise `str.lower()` (the library `String.toLower` is opaque to
kernel reduction). -/
def strToLower (s : String) : String := String.mk (s.toList.map Char.toLower)

/-- `_is_sidecar_file`: an existing regular file whose name does not start
with `._` and whose lower-cased extension is on the allow-list. -/
def is_sidecar_file (fs : FS) (p : FPath) : Bool :=
  decide (p ∈ fs.files) &&
    !((pathName p).toList.take 2 == ['.', '_']) &&
    decide (strToLower (pathSuffix p) ∈ SIDECAR_EXTENSIONS)

/-- One application of the source's trailing-group regular expression
`\s*(\([^)]*\)|\[[^\]]*\])\s*$` for a given delimiter pair: with the last
character the closing delimiter, the removed group starts at the leftmost
opening delimiter that has no closing delimiter between it and the end. -/
def stripOneGroup (oc cc : Char) (cs : List Char) : Option (List Char) :=
  if cs.getLast? = some cc then
    let body := cs.dropLast
    let tail := (body.reverse.takeWhile (fun x => x ≠ cc)).reverse
    if oc ∈ tail then
      some (body.take (body.length - tail.length) ++ tail.takeWhile (fun x => x ≠ oc))
    else none
  else none

/-- One iteration of `_clean_album_dir_name`'s loop: remove a single trailing
parenthesized or bracketed group and strip the remainder. -/
def stripTrailingGroupOnce (s : String) : Option String :=
  match stripOneGroup '(' ')' s.toList with
  | some r => some (pyStrip (String.mk r))
  | none =>
    match stripOneGroup '[' ']' s.toList with
    | some r => some (pyStrip (String.mk r))
    | none => none

/-- Fuelled fixpoint iteration for `_clean_album_dir_name`; each successful
strip removes at least two characters, so fuel `s.length` is never
exhausted. -/
def cleanAlbumAux : Nat → String → String
  | 0, s => s
  | fuel + 1, s =>
    match stripTrailingGroupOnce s with
    | some t => cleanAlbumAux fuel t
    | none => s

/-- `_clean_album_dir_name` from the source. -/
def clean_album_dir_name (value : String) : String :=
  let s := pyStrip value
  cleanAlbumAux s.toList.length s

/-- Fuelled splitter used in place of `String.splitOn` (whose library
implementation is well-founded-recursive and hence opaque to kernel
reduction): split at each leftmost, non-overlapping occurrence of the
separator.  Fuel at least the length of the input makes the fallback arm
unreachable. -/
def splitOnCharsGo (sep : List Char) : Nat → List Char → List Char → List (List Char)
  | _, [], acc => [acc.reverse]
  | 0, cs, acc => [acc.reverse ++ cs]
  | fuel + 1, c :: rest, acc =>
    if sep.isPrefixOf (c :: rest) then
      acc.reverse :: splitOnCharsGo sep fuel (List.drop (sep.length - 1) rest) []
    else splitOnCharsGo sep fuel rest (c :: acc)

/-- `s.split(sep)` for a non-empty separator, `[s]` otherwise (as Python's
`str.split` is only called with non-empty separators here). -/
def strSplitOn (s sep : String) : List String :=
  if sep = "" then [s]
  else (splitOnCharsGo sep.toList s.toList.length s.toList []).map String.mk

/-- `PurePath(s).parts` for the relative paths stored on records: split on
slashes, dropping empty components and `.`. -/
def pathParts (s : String) : List String :=
  (strSplitOn s "/").filter (fun c => !(c == "") && !(c == "."))

/-- `_infer_scan_root` from the source: from the first record whose relative
path is non-trivial, walk up `file_path` by the relative depth. -/
def infer_scan_root : List TrackRecord → Option FPath
  | [] => none
  | r :: rest =>
    let relParts := pathParts r.relative_path
    if relParts.isEmpty then infer_scan_root rest
    else
      let idx := relParts.length - 1
      if idx < r.file_path.length then
        some (r.file_path.take (r.file_path.length - 1 - idx))
      else infer_scan_root rest

/-- Split on the first occurrence of `" - "`, as `name.split(" - ", 1)`
guarded by `" - " in name`. -/
def splitFirstSep (name : String) : Option (String × String) :=
  match strSplitOn name " - " with
  | a :: b :: rest => some (a, String.intercalate " - " (b :: rest))
  | _ => none

/-- `_guess_destination_dir` from the source. -/
def guess_destination_dir (fs : FS) (source_dir destination_root : FPath) :
    Option FPath :=
  match splitFirstSep (pathName source_dir) with
  | none => none
  | some (artistRaw, albumRaw) =>
    let artist := sanitize_name artistRaw
    let album := sanitize_name (clean_album_dir_name albumRaw)
    let candidate := destination_root ++ [artist, album]
    if fs.pathExists candidate then some candidate else none

/-- The check `current == destination_root or destination_root in
current.parents` of `_collect_sidecar_files`: with absolute component
lists, membership in `parents` is proper prefixing, so together this is
plain prefixing. -/
def underOrEqual (root p : FPath) : Bool := root.isPrefixOf p

/-- The existing regular files directly inside a directory, in
filesystem-listing order. -/
def filesIn (fs : FS) (d : FPath) : List FPath :=
  fs.files.filter (fun f => f.dropLast == d)

/-- The directories `os.walk root` visits: the root first, then every
existing directory strictly below it, in listing order. -/
def walkDirs (fs : FS) (root : FPath) : List FPath :=
  root :: fs.dirs.filter (fun d => root.isPrefixOf d && !(d == root))

/-- A sidecar-phase warning string; every warning the sidecar collection and
relocation code emits is built from the common `"organize sidecar "` prefix
(the factoring does not change any string value produced by the source's
f-strings). -/
def warnSidecar (detail : String) : String := "organize sidecar " ++ detail

/-- `_collect_sidecar_files` from the source: walk the root, skip the
destination root and everything under it, and group sidecar candidates by
their containing directory (directories with no candidate produce no
entry); a walk failure on the root produces a warning instead. -/
def collect_sidecar_files (fs : FS) (root destination_root : FPath) :
    List (FPath × List FPath) × List String :=
  if root ∈ fs.dirs then
    ((walkDirs fs root).filterMap (fun current =>
      if underOrEqual destination_root current then none
      else
        let sidecars := (filesIn fs current).filter (fun c => is_sidecar_file fs c)
        if sidecars.isEmpty then none else some (current, sidecars)), [])
  else if root ∈ fs.files then
    ([], [warnSidecar ("walk error: " ++ pathStr root ++ ": Not a directory")])
  else
    ([], [warnSidecar ("walk error: " ++ pathStr root ++ ": No such file or directory")])

/-- State threaded through `_move_sidecar_candidates`. -/
structure SideState where
  fs : FS
  sidecar_moved : Nat
  warnings : List String
  files_done : Nat
  progress : List (Nat × Nat)
deriving DecidableEq

/-- One sidecar file inside a mapped directory: resolve the collision, do
the move/copy unless in dry-run, then count and report progress (the
`finally` block of the source). -/
def sideFileStep (dryRun copyMode : Bool) (filesTotal : Nat) (destDir : FPath)
    (st : SideState) (candidate : FPath) : SideState :=
  let target := non_colliding_path st.fs (destDir ++ [pathName candidate])
  let step :=
    if dryRun then (st.fs, (none : Option PyErr))
    else if copyMode then st.fs.copyFile candidate target
    else st.fs.moveFile candidate target
  match step with
  | (fs2, none) =>
    { st with
      fs := fs2
      sidecar_moved := st.sidecar_moved + 1
      files_done := st.files_done + 1
      progress := st.progress ++ [(st.files_done + 1, filesTotal)] }
  | (fs2, some e) =>
    { st with
      fs := fs2
      warnings := st.warnings ++
        [warnSidecar ("skipped: " ++ pathStr candidate ++ ": " ++ e.msg)]
      files_done := st.files_done + 1
      progress := st.progress ++ [(st.files_done + 1, filesTotal)] }

/-- One directory of `_move_sidecar_candidates`: resolve its destination via
the source-to-destination map or the pattern guess; an unmapped directory or
a failed destination `mkdir` warns and skips the whole batch of files,
reporting progress once for all of them. -/
def sideDirStep (sourceToDest : List (FPath × FPath)) (destRoot : FPath)
    (dryRun copyMode : Bool) (filesTotal : Nat)
    (st : SideState) (entry : FPath × List FPath) : SideState :=
  let srcDir := entry.1
  let files := entry.2
  let destDir :=
    match List.lookup srcDir sourceToDest with
    | some d => some d
    | none => guess_destination_dir st.fs srcDir destRoot
  match destDir with
  | none =>
    { st with
      warnings := st.warnings ++
        [warnSidecar ("directory unmapped: " ++ pathStr srcDir)]
      files_done := st.files_done + files.length
      progress := st.progress ++ [(st.files_done + files.length, filesTotal)] }
  | some dest =>
    match st.fs.mkdirParents dest with
    | (fs1, some e) =>
      { st with
        fs := fs1
        warnings := st.warnings ++
          [warnSidecar ("destination skipped: " ++ pathStr dest ++ ": " ++ e.msg)]
        files_done := st.files_done + files.length
        progress := st.progress ++ [(st.files_done + files.length, filesTotal)] }
    | (fs1, none) =>
      files.foldl (sideFileStep dryRun copyMode filesTotal dest) { st with fs := fs1 }

/-- `_move_sidecar_candidates` from the source; `warnings0` is the warning
list handed in by the caller, to which new warnings are appended. -/
def move_sidecar_candidates (entries : List (FPath × List FPath))
    (sourceToDest : List (FPath × FPath)) (destRoot : FPath)
    (dryRun copyMode : Bool) (fs : FS) (warnings0 : List String) : SideState :=
  let filesTotal := (entries.map (fun e => e.2.length)).sum
  entries.foldl (sideDirStep sourceToDest destRoot dryRun copyMode filesTotal)
    { fs := fs, sidecar_moved := 0, warnings := warnings0, files_done := 0,
      progress := [(0, filesTotal)] }

/-- `OrganizeResult` from `models.py` (counts are naturals: the source only
ever increments them from zero). -/
structure OrganizeResult where
  moved : Nat
  skipped : Nat
  sidecar_moved : Nat
  warnings : List String
deriving DecidableEq

/-- `organize_sidecar_files` from the source; the returned trace is the
sequence of `(completed, total)` progress-callback invocations. -/
def organize_sidecar_files (root destination_root : FPath)
    (dry_run copy_instead_of_move : Bool) (fs : FS) :
    FS × OrganizeResult × List (Nat × Nat) :=
  let collected := collect_sidecar_files fs root destination_root
  let st := move_sidecar_candidates collected.1 [] destination_root dry_run
    copy_instead_of_move fs collected.2
  (st.fs, ⟨0, 0, st.sidecar_moved, st.warnings⟩, st.progress)

/-- Outcome of one iteration of the record loop of `organize_files`: the
record was skipped (already in place), moved (with the vote it casts:
source parent, final-target parent), or converted into one warning. -/
inductive RecOutcome where
  | skipped
  | moved (srcParent destParent : FPath)
  | warned (w : String)
deriving DecidableEq

/-- The record-loop warning string
`f"organize skipped: {rel}: {exc}"` of the source. -/
def recordWarn (rel : String) (e : PyErr) : String :=
  "organize skipped: " ++ (rel ++ (": " ++ e.msg))

/-- `record.relative_path or str(record.file_path)` from the source. -/
def relOf (r : TrackRecord) : String :=
  if r.relative_path = "" then pathStr r.file_path else r.relative_path

/-- The body of one iteration of the record loop of `organize_files`:
compute the canonical target, skip when the source already resolves to it,
otherwise create the target's parent directory, resolve collisions, and in
apply mode copy or move; any failure becomes a warning.  Path resolution
(`Path.resolve`) is the identity here since model paths are absolute and
normalized. -/
def recordStep (destRoot : FPath) (dryRun copyMode : Bool) (fs : FS)
    (r : TrackRecord) : RecOutcome × FS :=
  let target := target_path_for r destRoot
  let source := r.file_path
  if source = target then (.skipped, fs)
  else
    match fs.mkdirParents (pathParent target) with
    | (fs1, some e) => (.warned (recordWarn (relOf r) e), fs1)
    | (fs1, none) =>
      let finalTarget := non_colliding_path fs1 target
      let step :=
        if dryRun then (fs1, (none : Option PyErr))
        else if copyMode then fs1.copyFile source finalTarget
        else fs1.moveFile source finalTarget
      match step with
      | (fs2, some e) => (.warned (recordWarn (relOf r) e), fs2)
      | (fs2, none) => (.moved (pathParent source) (pathParent finalTarget), fs2)

/-- The outcomes of the record loop in input order, threading the
filesystem state exactly as `organize_files` does. -/
def recordOutcomes (destRoot : FPath) (dryRun copyMode : Bool) :
    FS → List TrackRecord → List RecOutcome
  | _, [] => []
  | fs, r :: rest =>
    let step := recordStep destRoot dryRun copyMode fs r
    step.1 :: recordOutcomes destRoot dryRun copyMode step.2 rest

/-- Accumulator of the record loop of `organize_files`. -/
structure LoopState where
  fs : FS
  moved : Nat
  skipped : Nat
  warnings : List String
  votes : List (FPath × List (FPath × Nat))
  idx : Nat
  progress : List (Nat × Nat)
deriving DecidableEq

/-- Increment the tally of one destination inside a source directory's vote
dictionary, preserving first-insertion order as a Python dict does. -/
def bumpInner : List (FPath × Nat) → FPath → List (FPath × Nat)
  | [], d => [(d, 1)]
  | (e, n) :: rest, d =>
    if e = d then (e, n + 1) :: rest else (e, n) :: bumpInner rest d

/-- `source_to_dest_candidates[source.parent][final_target.parent] += 1`,
preserving first-insertion order of source directories. -/
def bumpVote : List (FPath × List (FPath × Nat)) → FPath → FPath →
    List (FPath × List (FPath × Nat))
  | [], s, d => [(s, [(d, 1)])]
  | (k, inner) :: rest, s, d =>
    if k = s then (k, bumpInner inner d) :: rest
    else (k, inner) :: bumpVote rest s d

/-- Fold one record into the loop state: apply the outcome and then, as the
source's `finally` block does, report progress `(idx, total)`. -/
def recordFoldStep (destRoot : FPath) (dryRun copyMode : Bool) (total : Nat)
    (st : LoopState) (r : TrackRecord) : LoopState :=
  let step := recordStep destRoot dryRun copyMode st.fs r
  let st2 :=
    match step.1 with
    | .skipped => { st with fs := step.2, skipped := st.skipped + 1 }
    | .warned w => { st with fs := step.2, warnings := st.warnings ++ [w] }
    | .moved sp dp =>
      { st with
        fs := step.2
        moved := st.moved + 1
        votes := bumpVote st.votes sp dp }
  { st2 with
    idx := st.idx + 1
    progress := st2.progress ++ [(st.idx + 1, total)] }

/-- The record loop of `organize_files` over the whole input list. -/
def recordLoop (destRoot : FPath) (dryRun copyMode : Bool) (total : Nat)
    (st : LoopState) (records : List TrackRecord) : LoopState :=
  records.foldl (recordFoldStep destRoot dryRun copyMode total) st

/-- Python's `max(counts.items(), key=count)[0]`: the first entry with the
strictly largest count wins. -/
def maxGo (best : FPath) (bn : Nat) : List (FPath × Nat) → FPath
  | [] => best
  | (d, n) :: rest => if bn < n then maxGo d n rest else maxGo best bn rest

/-- Collapse one source directory's vote dictionary into its winning
destination (`None` for an empty dictionary, mirroring the
`if not counts: continue` guard). -/
def maxByCount : List (FPath × Nat) → Option FPath
  | [] => none
  | (d, n) :: rest => some (maxGo d n rest)

/-- Collapse the vote tallies into the source-to-destination map. -/
def collapseVotes : List (FPath × List (FPath × Nat)) → List (FPath × FPath)
  | [] => []
  | (s, inner) :: rest =>
    match maxByCount inner with
    | none => collapseVotes rest
    | some d => (s, d) :: collapseVotes rest

/-- The flat per-directory fallback listing `organize_files` uses when no
scan root could be inferred: iterate the mapped source directories and list
each one directly (without the destination-root exclusion of the walk). -/
def fallbackCollect (fs : FS) : List FPath → List (FPath × List FPath) × List String
  | [] => ([], [])
  | d :: rest =>
    if d ∈ fs.dirs then
      let sidecars := (filesIn fs d).filter (fun c => is_sidecar_file fs c)
      let step := fallbackCollect fs rest
      (if sidecars.isEmpty then step.1 else (d, sidecars) :: step.1, step.2)
    else
      let step := fallbackCollect fs rest
      let e : PyErr := if d ∈ fs.files then PyErr.notADirectory d else PyErr.fileNotFound d
      (step.1,
        (warnSidecar ("directory skipped: " ++ pathStr d ++ ": " ++ e.msg)) :: step.2)

/-- `organize_files` from the source.  The returned trace is the sequence of
`(completed, total)` progress-callback invocations; the source does not
forward the callback to its sidecar sub-pass, so only the record loop
contributes to it. -/
def organize_files (records : List TrackRecord) (destination_root : FPath)
    (dry_run copy_instead_of_move : Bool) (fs : FS) :
    FS × OrganizeResult × List (Nat × Nat) :=
  let total := records.length
  let st0 : LoopState :=
    { fs := fs, moved := 0, skipped := 0, warnings := [], votes := [],
      idx := 0, progress := [(0, total)] }
  let st := recordLoop destination_root dry_run copy_instead_of_move total st0 records
  let sourceToDest := collapseVotes st.votes
  let collected :=
    match infer_scan_root records with
    | some root => collect_sidecar_files st.fs root destination_root
    | none => fallbackCollect st.fs (sourceToDest.map Prod.fst)
  let sst := move_sidecar_candidates collected.1 sourceToDest destination_root
    dry_run copy_instead_of_move st.fs (st.warnings ++ collected.2)
  (sst.fs, ⟨st.moved, st.skipped, sst.sidecar_moved, sst.warnings⟩, st.progress)

/-- Classifier: the outcome is a successful (or dry-run planned) move. -/
def outcomeIsMoved : RecOutcome → Bool
  | .moved _ _ => true
  | _ => false

/-- Classifier: the outcome is a skip (source already at canonical target). -/
def outcomeIsSkipped : RecOutcome → Bool
  | .skipped => true
  | _ => false

/-- The warning carried by a warned outcome, if any. -/
def outcomeWarning : RecOutcome → Option String
  | .warned w => some w
  | _ => none

/-- Discriminator selecting record-loop warnings among the warnings of an
`OrganizeResult`: exactly the strings starting with `"organize skipped: "`
(every sidecar-phase warning starts with `"organize sidecar "` instead). -/
def isRecordSkipWarn (s : String) : Bool :=
  "organize skipped: ".toList.isPrefixOf s.toList

/-- Decimal parser, a left inverse of `natDecAux` used to prove that the
collision counter's rendering is injective. -/
def parseDec (cs : List Char) : Nat :=
  cs.foldl (fun a c => a * 10 + (c.toNat - 48)) 0

/-- Path sanitization written from the specification's own words: "trim
leading/trailing whitespace; strip trailing periods; replace any of the
characters `< > : " / \ | ? *` and all ASCII control characters (0x00-0x1F)
with `_`; if the result is empty, substitute the literal fallback
`"Unknown"`" — to be compared with `sanitize_name` from the source. -/
def sanitizeSpec (s : String) : String :=
  let trimmed := pyStrip s
  let stripped := rstripDots trimmed
  let replaced := String.mk (stripped.toList.map (fun c =>
    if c ∈ ['<', '>', ':', '"', '/', '\\', '|', '?', '*'] ∨ c.toNat ≤ 31 then '_'
    else c))
  if replaced = "" then "Unknown" else replaced

/-- Fixture: a source tree `/src` with two audio files and an empty `/out`. -/
def exFs : FS :=
  ⟨[["src", "t1.flac"], ["src", "t2.mp3"]], [[], ["src"], ["out"]], []⟩

/-- Fixture: the spec's end-to-end record `{artist:"Pink Floyd",
album:"The Wall", file:"t1.flac"}`. -/
def exRec1 : TrackRecord := ⟨["src", "t1.flac"], "t1.flac", "Pink Floyd", "The Wall"⟩

/-- Fixture: the spec's end-to-end record `{artist:"", album:"",
file:"t2.mp3"}`. -/
def exRec2 : TrackRecord := ⟨["src", "t2.mp3"], "t2.mp3", "", ""⟩

/-- Fixture: a tree whose only audio file lives inside the destination
root's own tree and whose record has an empty relative path, so no scan
root is inferable. -/
def exFsInDest : FS :=
  ⟨[["out", "stuff", "t.mp3"], ["out", "stuff", "cover.jpg"]],
   [[], ["out"], ["out", "stuff"]], []⟩

/-- Fixture: the record for the audio file inside the destination root. -/
def exRecInDest : TrackRecord := ⟨["out", "stuff", "t.mp3"], "", "A", "B"⟩

/-- Fixture: a source tree whose one directory holds two sidecar files and
matches no destination, for the progress-trace counterexample. -/
def exFsUnmapped : FS :=
  ⟨[["src", "d", "a.jpg"], ["src", "d", "b.txt"]],
   [[], ["src"], ["src", "d"], ["out"]], []⟩

/-- Fixture: three records of which the middle one hits a denied target
directory (a simulated permission error). -/
def exFsDenied : FS :=
  ⟨[["src", "a.mp3"], ["src", "b.mp3"], ["src", "c.mp3"]],
   [[], ["src"], ["out"]], [["out", "B", "AlbB"]]⟩

/-- Fixture: first record of the partial-failure scenario. -/
def exRecA : TrackRecord := ⟨["src", "a.mp3"], "a.mp3", "A", "AlbA"⟩

/-- Fixture: the failing middle record of the partial-failure scenario. -/
def exRecB : TrackRecord := ⟨["src", "b.mp3"], "b.mp3", "B", "AlbB"⟩

/-- Fixture: last record of the partial-failure scenario. -/
def exRecC : TrackRecord := ⟨["src", "c.mp3"], "c.mp3", "C", "AlbC"⟩

/-! ### String discrimination lemmas -/

lemma warnSidecar_not_skip (t : String) : isRecordSkipWarn (warnSidecar t) = false := by
  rw [Bool.eq_false_iff]
  intro hb
  have h := List.isPrefixOf_iff_prefix.mp hb
  rw [warnSidecar] at h
  obtain ⟨u, hu⟩ := h
  have hdata : ("organize sidecar " ++ t).toList
      = "organize sidecar ".toList ++ t.toList := String.data_append _ _
  rw [hdata] at hu
  have h17 := congrArg (List.take 17) hu
  rw [List.take_append_of_le_length (by decide),
    List.take_append_of_le_length (by decide)] at h17
  exact absurd h17 (by decide)

lemma recordWarn_is_skip (rel : String) (e : PyErr) :
    isRecordSkipWarn (recordWarn rel e) = true := by
  have hpre : "organize skipped: ".toList <+: (recordWarn rel e).toList := by
    rw [recordWarn]
    have hdata : ("organize skipped: " ++ (rel ++ (": " ++ e.msg))).toList
        = "organize skipped: ".toList ++ (rel ++ (": " ++ e.msg)).toList :=
      String.data_append _ _
    rw [hdata]
    exact List.prefix_append _ _
  rw [isRecordSkipWarn]
  exact List.isPrefixOf_iff_prefix.mpr hpre

/-! ### The sanitizer (claim C6) -/

lemma isInvalidChar_iff (c : Char) :
    isInvalidChar c = true ↔
      (c ∈ ['<', '>', ':', '"', '/', '\\', '|', '?', '*'] ∨ c.toNat ≤ 31) := by
  simp only [isInvalidChar, Bool.or_eq_true, beq_iff_eq, decide_eq_true_eq,
    List.mem_cons, List.not_mem_nil, or_false]
  tauto

/-- C6: `sanitize_name` coincides with the specification's pipeline — trim
whitespace, strip trailing periods, replace the listed characters and all
ASCII control characters by underscores, and substitute `"Unknown"` exactly
when the result is empty; moreover `sanitize_name "AC/DC"` contains no
slash, `sanitize_name "   " = "Unknown"`, and `sanitize_name "Trailing."`
has no trailing period. -/
theorem sanitize_name_matches_spec :
    (∀ s, sanitize_name s = sanitizeSpec s) ∧
    ('/' ∉ (sanitize_name "AC/DC").toList) ∧
    sanitize_name "   " = "Unknown" ∧
    (sanitize_name "Trailing.").toList.getLast? ≠ some '.' := by
  refine ⟨?_, by decide, by decide, by decide⟩
  intro s
  have hfun : (fun c => if isInvalidChar c then '_' else c)
      = (fun c =>
          if c ∈ ['<', '>', ':', '"', '/', '\\', '|', '?', '*'] ∨ c.toNat ≤ 31 then '_'
          else c) := by
    funext c
    cases hic : isInvalidChar c with
    | true =>
      simp only [hic, if_true]
      exact (if_pos ((isInvalidChar_iff c).mp hic)).symm
    | false =>
      have hno : ¬ (c ∈ ['<', '>', ':', '"', '/', '\\', '|', '?', '*'] ∨ c.toNat ≤ 31) := by
        intro hcontra
        rw [(isInvalidChar_iff c).mpr hcontra] at hic
        cases hic
      simp only [hic, Bool.false_eq_true, if_false]
      exact (if_neg hno).symm
  unfold sanitize_name sanitizeSpec
  rw [hfun]

/-! ### Collision resolution (claim C4) -/

lemma parseDec_append_singleton (l : List Char) (ch : Char) :
    parseDec (l ++ [ch]) = parseDec l * 10 + (ch.toNat - 48) := by
  simp [parseDec, List.foldl_append]

lemma digitCh_toNat_sub : ∀ d, d < 10 → (digitCh d).toNat - 48 = d := by decide

lemma natDecAux_parse : ∀ fuel n, n ≤ fuel → parseDec (natDecAux fuel n) = n := by
  intro fuel
  induction fuel with
  | zero =>
    intro n h
    interval_cases n
    simp [natDecAux, parseDec]
  | succ f ih =>
    intro n h
    by_cases h0 : n = 0
    · subst h0; simp [natDecAux, parseDec]
    · have hdiv : n / 10 < n := Nat.div_lt_self (by omega) (by omega)
      rw [show natDecAux (f + 1) n = natDecAux f (n / 10) ++ [digitCh (n % 10)] by
        simp [natDecAux, h0]]
      rw [parseDec_append_singleton, ih (n / 10) (by omega),
        digitCh_toNat_sub (n % 10) (by omega)]
      omega

lemma natDecimal_data_inj {a b : Nat}
    (h : (natDecimal a).toList = (natDecimal b).toList) : a = b := by
  unfold natDecimal at h
  by_cases ha : a = 0 <;> by_cases hb : b = 0
  · omega
  · rw [if_pos ha, if_neg hb] at h
    have h2 : (['0'] : List Char) = natDecAux b b := h
    have := congrArg parseDec h2
    rw [natDecAux_parse b b le_rfl] at this
    simp [parseDec] at this
    omega
  · rw [if_neg ha, if_pos hb] at h
    have h2 : natDecAux a a = (['0'] : List Char) := h
    have := congrArg parseDec h2
    rw [natDecAux_parse a a le_rfl] at this
    simp [parseDec] at this
    omega
  · rw [if_neg ha, if_neg hb] at h
    have h2 : natDecAux a a = natDecAux b b := h
    have := congrArg parseDec h2
    rw [natDecAux_parse a a le_rfl, natDecAux_parse b b le_rfl] at this
    exact this

lemma collisionCandidate_inj (parent : FPath) (stem sfx : String) {c1 c2 : Nat}
    (h : collisionCandidate parent stem sfx c1 = collisionCandidate parent stem sfx c2) :
    c1 = c2 := by
  unfold collisionCandidate at h
  have h2 := List.append_cancel_left h
  have h3 : stem ++ " (" ++ natDecimal c1 ++ ")" ++ sfx
      = stem ++ " (" ++ natDecimal c2 ++ ")" ++ sfx := by
    simpa using h2
  have h4 := congrArg String.data h3
  simp only [String.data_append, List.append_assoc] at h4
  have h5 := List.append_cancel_left h4
  have h6 := List.append_cancel_left h5
  have h7 := List.append_cancel_right h6
  exact natDecimal_data_inj h7

lemma exists_free_candidate (fs : FS) (parent : FPath) (stem sfx : String) :
    ∃ j, j < fs.files.length + fs.dirs.length + 1 ∧
      fs.pathExists (collisionCandidate parent stem sfx (1 + j)) = false := by
  by_contra hc
  push_neg at hc
  have hall : ∀ j, j < fs.files.length + fs.dirs.length + 1 →
      collisionCandidate parent stem sfx (1 + j) ∈ fs.files ++ fs.dirs := by
    intro j hj
    have hb := hc j hj
    have ht : fs.pathExists (collisionCandidate parent stem sfx (1 + j)) = true := by
      cases hcase : fs.pathExists (collisionCandidate parent stem sfx (1 + j)) with
      | false => exact absurd hcase hb
      | true => rfl
    simp only [FS.pathExists, Bool.or_eq_true, decide_eq_true_eq] at ht
    rw [List.mem_append]
    exact ht
  have hmaps : ∀ j ∈ Finset.range (fs.files.length + fs.dirs.length + 1),
      collisionCandidate parent stem sfx (1 + j) ∈ (fs.files ++ fs.dirs).toFinset := by
    intro j hj
    exact List.mem_toFinset.mpr (hall j (Finset.mem_range.mp hj))
  have hinj : Set.InjOn (fun j => collisionCandidate parent stem sfx (1 + j))
      ↑(Finset.range (fs.files.length + fs.dirs.length + 1)) := by
    intro x _ y _ hxy
    have := collisionCandidate_inj parent stem sfx hxy
    omega
  have hcard := Finset.card_le_card_of_injOn _ hmaps hinj
  rw [Finset.card_range] at hcard
  have hfin : (fs.files ++ fs.dirs).toFinset.card ≤ fs.files.length + fs.dirs.length := by
    have := (fs.files ++ fs.dirs).toFinset_card_le
    simpa using this
  omega

lemma probeFrom_spec (fs : FS) (parent : FPath) (stem sfx : String) :
    ∀ fuel c,
      (∃ j, j < fuel ∧ fs.pathExists (collisionCandidate parent stem sfx (c + j)) = false) →
      ∃ j, j < fuel ∧
        probeFrom fs parent stem sfx fuel c = collisionCandidate parent stem sfx (c + j) ∧
        fs.pathExists (collisionCandidate parent stem sfx (c + j)) = false ∧
        ∀ i, i < j → fs.pathExists (collisionCandidate parent stem sfx (c + i)) = true := by
  intro fuel
  induction fuel with
  | zero =>
    rintro c ⟨j, hj, _⟩
    omega
  | succ f ih =>
    rintro c ⟨j, hj, hfree⟩
    cases h0 : fs.pathExists (collisionCandidate parent stem sfx c) with
    | false =>
      refine ⟨0, by omega, ?_, by simpa using h0, fun i hi => absurd hi (by omega)⟩
      simp [probeFrom, h0]
    | true =>
      have hj0 : j ≠ 0 := by
        intro hz
        subst hz
        rw [Nat.add_zero] at hfree
        rw [hfree] at h0
        cases h0
      have hex : ∃ j', j' < f ∧
          fs.pathExists (collisionCandidate parent stem sfx (c + 1 + j')) = false := by
        refine ⟨j - 1, by omega, ?_⟩
        rw [show c + 1 + (j - 1) = c + j by omega]
        exact hfree
      obtain ⟨j', hj', heq, hfree', hall'⟩ := ih (c + 1) hex
      refine ⟨j' + 1, by omega, ?_, ?_, ?_⟩
      · rw [show probeFrom fs parent stem sfx (f + 1) c
            = probeFrom fs parent stem sfx f (c + 1) by simp [probeFrom, h0]]
        rw [heq]
        congr 1
        omega
      · rw [show c + (j' + 1) = c + 1 + j' by omega]
        exact hfree'
      · intro i hi
        cases i with
        | zero => simpa using h0
        | succ i' =>
          have := hall' i' (by omega)
          rw [show c + (i' + 1) = c + 1 + i' by omega]
          exact this

/-- C4: collision resolution returns the path unchanged when it does not
exist; otherwise it returns the first (least-counter) numbered candidate
that does not exist; in all cases the returned path names no existing file
or directory, and the probe succeeds for every finite filesystem. -/
theorem non_colliding_path_spec (fs : FS) (p : FPath) :
    fs.pathExists (non_colliding_path fs p) = false ∧
    (fs.pathExists p = false → non_colliding_path fs p = p) ∧
    (fs.pathExists p = true → ∃ c, 1 ≤ c ∧
      non_colliding_path fs p
        = collisionCandidate (pathParent p) (pathStem p) (pathSuffix p) c ∧
      fs.pathExists (collisionCandidate (pathParent p) (pathStem p) (pathSuffix p) c)
        = false ∧
      ∀ j, 1 ≤ j → j < c →
        fs.pathExists (collisionCandidate (pathParent p) (pathStem p) (pathSuffix p) j)
          = true) := by
  cases hp : fs.pathExists p with
  | false =>
    refine ⟨by simp [non_colliding_path, hp], fun _ => by simp [non_colliding_path, hp],
      fun hcontra => nomatch hcontra⟩
  | true =>
    have hex0 := exists_free_candidate fs (pathParent p) (pathStem p) (pathSuffix p)
    obtain ⟨j0, hj0, hfree0⟩ := hex0
    have hprobe := probeFrom_spec fs (pathParent p) (pathStem p) (pathSuffix p)
      (fs.files.length + fs.dirs.length + 1) 1 ⟨j0, hj0, hfree0⟩
    obtain ⟨j, hj, heq, hfree, hall⟩ := hprobe
    have hval : non_colliding_path fs p
        = collisionCandidate (pathParent p) (pathStem p) (pathSuffix p) (1 + j) := by
      rw [non_colliding_path, if_pos hp]
      exact heq
    refine ⟨by rw [hval]; exact hfree, by simp, fun _ => ?_⟩
    refine ⟨1 + j, by omega, hval, hfree, ?_⟩
    intro i h1 hlt
    have := hall (i - 1) (by omega)
    rw [show 1 + (i - 1) = i by omega] at this
    exact this

/-! ### The record loop (claims C2, C3, C9, C10) -/

lemma recordFoldStep_eq (d : FPath) (dr c : Bool) (t : Nat) (st : LoopState)
    (r : TrackRecord) :
    (recordFoldStep d dr c t st r).fs = (recordStep d dr c st.fs r).2 ∧
    (recordFoldStep d dr c t st r).moved
      = st.moved + (if outcomeIsMoved (recordStep d dr c st.fs r).1 then 1 else 0) ∧
    (recordFoldStep d dr c t st r).skipped
      = st.skipped + (if outcomeIsSkipped (recordStep d dr c st.fs r).1 then 1 else 0) ∧
    (recordFoldStep d dr c t st r).warnings
      = st.warnings ++ (outcomeWarning (recordStep d dr c st.fs r).1).toList ∧
    (recordFoldStep d dr c t st r).idx = st.idx + 1 ∧
    (recordFoldStep d dr c t st r).progress = st.progress ++ [(st.idx + 1, t)] := by
  cases h : (recordStep d dr c st.fs r).1 <;>
    simp [recordFoldStep, h, outcomeIsMoved, outcomeIsSkipped, outcomeWarning]

lemma recordLoop_spec (d : FPath) (dr c : Bool) (t : Nat)
    (records : List TrackRecord) :
    ∀ st : LoopState,
      (recordLoop d dr c t st records).moved
        = st.moved + ((recordOutcomes d dr c st.fs records).filter outcomeIsMoved).length ∧
      (recordLoop d dr c t st records).skipped
        = st.skipped
            + ((recordOutcomes d dr c st.fs records).filter outcomeIsSkipped).length ∧
      (recordLoop d dr c t st records).warnings
        = st.warnings ++ (recordOutcomes d dr c st.fs records).filterMap outcomeWarning ∧
      (recordLoop d dr c t st records).idx = st.idx + records.length ∧
      (recordLoop d dr c t st records).progress
        = st.progress ++ (List.range records.length).map (fun i => (st.idx + i + 1, t)) := by
  induction records with
  | nil => intro st; simp [recordLoop, recordOutcomes]
  | cons r rest ih =>
    intro st
    obtain ⟨hfs, hm, hsk, hw, hi, hp⟩ := recordFoldStep_eq d dr c t st r
    rw [show recordLoop d dr c t st (r :: rest)
        = recordLoop d dr c t (recordFoldStep d dr c t st r) rest from rfl]
    rw [show recordOutcomes d dr c st.fs (r :: rest)
        = (recordStep d dr c st.fs r).1
            :: recordOutcomes d dr c (recordStep d dr c st.fs r).2 rest from rfl]
    obtain ⟨im, isk, iw, ii, ip⟩ := ih (recordFoldStep d dr c t st r)
    rw [hfs] at im isk iw
    refine ⟨?_, ?_, ?_, ?_, ?_⟩
    · rw [im, hm]
      cases hh : outcomeIsMoved (recordStep d dr c st.fs r).1 <;>
        simp [List.filter_cons, hh] <;> omega
    · rw [isk, hsk]
      cases hh : outcomeIsSkipped (recordStep d dr c st.fs r).1 <;>
        simp [List.filter_cons, hh] <;> omega
    · rw [iw, hw]
      cases hh : (recordStep d dr c st.fs r).1 <;>
        simp [List.filterMap_cons, outcomeWarning, hh]
    · rw [ii, hi]
      simp [List.length_cons]
      omega
    · rw [ip, hp, hi]
      simp only [List.length_cons]
      rw [List.range_succ_eq_map, List.map_cons, List.map_map]
      have hcomp : ((fun i => (st.idx + i + 1, t)) ∘ Nat.succ)
          = (fun i => (st.idx + 1 + i + 1, t)) := by
        funext i
        simp only [Function.comp_apply, Prod.mk.injEq]
        exact ⟨by omega, trivial⟩
      rw [hcomp]
      simp [List.append_assoc]

lemma recordOutcomes_length (d : FPath) (dr c : Bool) (records : List TrackRecord) :
    ∀ fs : FS, (recordOutcomes d dr c fs records).length = records.length := by
  induction records with
  | nil => intro fs; simp [recordOutcomes]
  | cons r rest ih =>
    intro fs
    rw [show recordOutcomes d dr c fs (r :: rest)
        = (recordStep d dr c fs r).1
            :: recordOutcomes d dr c (recordStep d dr c fs r).2 rest from rfl]
    simp [ih]

lemma outcome_partition (ocs : List RecOutcome) :
    (ocs.filter outcomeIsMoved).length + (ocs.filter outcomeIsSkipped).length
      + (ocs.filterMap outcomeWarning).length = ocs.length := by
  induction ocs with
  | nil => simp
  | cons o rest ih =>
    cases o <;>
      simp [List.filter_cons, List.filterMap_cons, outcomeIsMoved, outcomeIsSkipped,
        outcomeWarning] <;> omega

/-! ### Dry-run preservation of the file set (claim C1) -/

lemma mkdirGo_files : ∀ (l : List FPath) (fs : FS), (mkdirGo fs l).1.files = fs.files := by
  intro l
  induction l with
  | nil => intro fs; simp [mkdirGo]
  | cons q rest ih =>
    intro fs
    by_cases h1 : q ∈ fs.dirs
    · simp [mkdirGo, h1, ih]
    · by_cases h2 : q ∈ fs.files
      · simp [mkdirGo, h1, h2]
      · by_cases h3 : q ∈ fs.denied
        · simp [mkdirGo, h1, h2, h3]
        · simp [mkdirGo, h1, h2, h3, ih]

lemma mkdirParents_files (fs : FS) (p : FPath) :
    (fs.mkdirParents p).1.files = fs.files := mkdirGo_files _ _

lemma recordStep_dry_files (d : FPath) (c : Bool) (fs : FS) (r : TrackRecord) :
    (recordStep d true c fs r).2.files = fs.files := by
  by_cases hsame : r.file_path = target_path_for r d
  · simp [recordStep, hsame]
  · simp only [recordStep, if_neg hsame]
    rcases hmk : fs.mkdirParents (pathParent (target_path_for r d)) with ⟨fs1, err⟩
    have hf : fs1.files = fs.files := by
      have := mkdirParents_files fs (pathParent (target_path_for r d))
      rw [hmk] at this
      exact this
    cases err <;> simp [hmk, hf]

lemma recordLoop_dry_files (d : FPath) (c : Bool) (t : Nat)
    (records : List TrackRecord) :
    ∀ st : LoopState, (recordLoop d true c t st records).fs.files = st.fs.files := by
  induction records with
  | nil => intro st; simp [recordLoop]
  | cons r rest ih =>
    intro st
    rw [show recordLoop d true c t st (r :: rest)
        = recordLoop d true c t (recordFoldStep d true c t st r) rest from rfl]
    rw [ih, (recordFoldStep_eq d true c t st r).1, recordStep_dry_files]

lemma sideFileStep_dry_fs (c : Bool) (ft : Nat) (dest : FPath) (st : SideState)
    (cand : FPath) : (sideFileStep true c ft dest st cand).fs = st.fs := by
  simp [sideFileStep]

lemma sideFileFold_dry_fs (c : Bool) (ft : Nat) (dest : FPath) :
    ∀ (files : List FPath) (st : SideState),
      (files.foldl (sideFileStep true c ft dest) st).fs = st.fs := by
  intro files
  induction files with
  | nil => intro st; simp
  | cons f rest ih =>
    intro st
    rw [List.foldl_cons, ih, sideFileStep_dry_fs]

lemma sideDirStep_dry_files (m : List (FPath × FPath)) (root : FPath) (c : Bool)
    (ft : Nat) (st : SideState) (e : FPath × List FPath) :
    (sideDirStep m root true c ft st e).fs.files = st.fs.files := by
  simp only [sideDirStep]
  split
  · rfl
  next dest hdest =>
    rcases hmk : st.fs.mkdirParents dest with ⟨fs1, err⟩
    have hf : fs1.files = st.fs.files := by
      have := mkdirParents_files st.fs dest
      rw [hmk] at this
      exact this
    cases err with
    | some e2 => simp [hmk, hf]
    | none => simp [hmk, sideFileFold_dry_fs, hf]

lemma sideDirFold_dry_files (m : List (FPath × FPath)) (root : FPath) (c : Bool)
    (ft : Nat) :
    ∀ (entries : List (FPath × List FPath)) (st : SideState),
      ((entries.foldl (sideDirStep m root true c ft) st).fs).files = st.fs.files := by
  intro entries
  induction entries with
  | nil => intro st; simp
  | cons e rest ih =>
    intro st
    rw [List.foldl_cons, ih, sideDirStep_dry_files]

lemma move_sidecar_dry_files (entries : List (FPath × List FPath))
    (m : List (FPath × FPath)) (root : FPath) (c : Bool) (fs : FS)
    (ws0 : List String) :
    (move_sidecar_candidates entries m root true c fs ws0).fs.files = fs.files := by
  rw [move_sidecar_candidates]
  exact sideDirFold_dry_files m root c _ entries _

/-! ### Sidecar-phase warnings never look like record-loop warnings -/

lemma sideFileStep_warn_filter (dr cp : Bool) (ft : Nat) (dest : FPath)
    (st : SideState) (cand : FPath) :
    ((sideFileStep dr cp ft dest st cand).warnings).filter isRecordSkipWarn
      = st.warnings.filter isRecordSkipWarn := by
  simp only [sideFileStep]
  split
  · rfl
  · simp [List.filter_append, warnSidecar_not_skip]

lemma sideFileFold_warn_filter (dr cp : Bool) (ft : Nat) (dest : FPath) :
    ∀ (files : List FPath) (st : SideState),
      ((files.foldl (sideFileStep dr cp ft dest) st).warnings).filter isRecordSkipWarn
        = st.warnings.filter isRecordSkipWarn := by
  intro files
  induction files with
  | nil => intro st; simp
  | cons f rest ih =>
    intro st
    rw [List.foldl_cons, ih, sideFileStep_warn_filter]

lemma sideDirStep_warn_filter (m : List (FPath × FPath)) (root : FPath)
    (dr cp : Bool) (ft : Nat) (st : SideState) (e : FPath × List FPath) :
    ((sideDirStep m root dr cp ft st e).warnings).filter isRecordSkipWarn
      = st.warnings.filter isRecordSkipWarn := by
  simp only [sideDirStep]
  split
  · simp [List.filter_append, warnSidecar_not_skip]
  · split
    · simp [List.filter_append, warnSidecar_not_skip]
    · rw [sideFileFold_warn_filter]

lemma sideDirFold_warn_filter (m : List (FPath × FPath)) (root : FPath)
    (dr cp : Bool) (ft : Nat) :
    ∀ (entries : List (FPath × List FPath)) (st : SideState),
      ((entries.foldl (sideDirStep m root dr cp ft) st).warnings).filter isRecordSkipWarn
        = st.warnings.filter isRecordSkipWarn := by
  intro entries
  induction entries with
  | nil => intro st; simp
  | cons e rest ih =>
    intro st
    rw [List.foldl_cons, ih, sideDirStep_warn_filter]

lemma move_sidecar_warn_filter (entries : List (FPath × List FPath))
    (m : List (FPath × FPath)) (root : FPath) (dr cp : Bool) (fs : FS)
    (ws0 : List String) :
    ((move_sidecar_candidates entries m root dr cp fs ws0).warnings).filter
        isRecordSkipWarn
      = ws0.filter isRecordSkipWarn := by
  rw [move_sidecar_candidates]
  exact sideDirFold_warn_filter m root dr cp _ entries _

lemma collect_warn_filter (fs : FS) (root droot : FPath) :
    ((collect_sidecar_files fs root droot).2).filter isRecordSkipWarn = [] := by
  rw [collect_sidecar_files]
  by_cases h1 : root ∈ fs.dirs
  · simp [h1]
  · by_cases h2 : root ∈ fs.files <;> simp [h1, h2, warnSidecar_not_skip]

lemma fallback_warn_filter (fs : FS) :
    ∀ l : List FPath, ((fallbackCollect fs l).2).filter isRecordSkipWarn = [] := by
  intro l
  induction l with
  | nil => simp [fallbackCollect]
  | cons d rest ih =>
    by_cases h1 : d ∈ fs.dirs
    · simp [fallbackCollect, h1, ih]
    · simp [fallbackCollect, h1, warnSidecar_not_skip, ih]

lemma recordStep_warned_shape (d : FPath) (dr cp : Bool) (fs : FS) (r : TrackRecord)
    (w : String) (h : (recordStep d dr cp fs r).1 = RecOutcome.warned w) :
    ∃ rel e, w = recordWarn rel e := by
  by_cases hsame : r.file_path = target_path_for r d
  · simp [recordStep, hsame] at h
  · simp only [recordStep, if_neg hsame] at h
    rcases hmk : fs.mkdirParents (pathParent (target_path_for r d)) with ⟨fs1, err⟩
    rw [hmk] at h
    cases err with
    | some e =>
      simp at h
      exact ⟨relOf r, e, h.symm⟩
    | none =>
      simp only at h
      rcases hstep : (if dr = true then (fs1, (none : Option PyErr))
          else if cp = true then fs1.copyFile r.file_path (non_colliding_path fs1 (target_path_for r d))
          else fs1.moveFile r.file_path (non_colliding_path fs1 (target_path_for r d)))
        with ⟨fs2, err2⟩
      rw [hstep] at h
      cases err2 with
      | some e2 =>
        simp at h
        exact ⟨relOf r, e2, h.symm⟩
      | none => simp at h

lemma recordOutcomes_warning_isSkip (d : FPath) (dr cp : Bool) :
    ∀ (records : List TrackRecord) (fs : FS) (w : String),
      RecOutcome.warned w ∈ recordOutcomes d dr cp fs records →
      isRecordSkipWarn w = true := by
  intro records
  induction records with
  | nil => intro fs w h; simp [recordOutcomes] at h
  | cons r rest ih =>
    intro fs w h
    rw [show recordOutcomes d dr cp fs (r :: rest)
        = (recordStep d dr cp fs r).1
            :: recordOutcomes d dr cp (recordStep d dr cp fs r).2 rest from rfl] at h
    rcases List.mem_cons.mp h with h1 | h2
    · obtain ⟨rel, e, hw⟩ := recordStep_warned_shape d dr cp fs r w h1.symm
      rw [hw]
      exact recordWarn_is_skip rel e
    · exact ih _ w h2

lemma filterMap_warning_all_skip (d : FPath) (dr cp : Bool)
    (records : List TrackRecord) (fs : FS) :
    ((recordOutcomes d dr cp fs records).filterMap outcomeWarning).filter
        isRecordSkipWarn
      = (recordOutcomes d dr cp fs records).filterMap outcomeWarning := by
  apply List.filter_eq_self.mpr
  intro w hw
  obtain ⟨o, ho, hsome⟩ := List.mem_filterMap.mp hw
  cases o with
  | skipped => simp [outcomeWarning] at hsome
  | moved sp dp => simp [outcomeWarning] at hsome
  | warned w2 =>
    simp [outcomeWarning] at hsome
    subst hsome
    exact recordOutcomes_warning_isSkip d dr cp records fs w2 ho

lemma organize_files_results (records : List TrackRecord) (droot : FPath)
    (dr cp : Bool) (fs : FS) :
    (organize_files records droot dr cp fs).2.1.moved
      = ((recordOutcomes droot dr cp fs records).filter outcomeIsMoved).length ∧
    (organize_files records droot dr cp fs).2.1.skipped
      = ((recordOutcomes droot dr cp fs records).filter outcomeIsSkipped).length ∧
    ((organize_files records droot dr cp fs).2.1.warnings).filter isRecordSkipWarn
      = (recordOutcomes droot dr cp fs records).filterMap outcomeWarning ∧
    (organize_files records droot dr cp fs).2.2
      = (0, records.length)
          :: (List.range records.length).map (fun i => (i + 1, records.length)) := by
  obtain ⟨hm, hsk, hw, hi, hp⟩ := recordLoop_spec droot dr cp records.length records
    { fs := fs, moved := 0, skipped := 0, warnings := [], votes := [],
      idx := 0, progress := [(0, records.length)] }
  refine ⟨?_, ?_, ?_, ?_⟩
  · simpa using hm
  · simpa using hsk
  · show ((move_sidecar_candidates _ _ _ _ _ _ _).warnings).filter isRecordSkipWarn = _
    rw [move_sidecar_warn_filter, List.filter_append, hw]
    simp only [List.nil_append]
    rw [filterMap_warning_all_skip]
    have hcoll : ((match infer_scan_root records with
        | some root =>
          collect_sidecar_files
            (recordLoop droot dr cp records.length
              { fs := fs, moved := 0, skipped := 0, warnings := [], votes := [],
                idx := 0, progress := [(0, records.length)] } records).fs
            root droot
        | none =>
          fallbackCollect
            (recordLoop droot dr cp records.length
              { fs := fs, moved := 0, skipped := 0, warnings := [], votes := [],
                idx := 0, progress := [(0, records.length)] } records).fs
            ((collapseVotes
              (recordLoop droot dr cp records.length
                { fs := fs, moved := 0, skipped := 0, warnings := [], votes := [],
                  idx := 0, progress := [(0, records.length)] } records).votes).map
              Prod.fst)).2).filter isRecordSkipWarn = [] := by
      cases infer_scan_root records with
      | some root => simp [collect_warn_filter]
      | none => simp [fallback_warn_filter]
    rw [hcoll]
    simp
  · show (recordLoop droot dr cp records.length _ records).progress = _
    rw [hp]
    simp only [List.nil_append]
    have : (fun i => ((0 : Nat) + i + 1, records.length))
        = (fun i => (i + 1, records.length)) := by
      funext i
      simp
    rw [this]
    rfl

lemma recordStep_same_path (d : FPath) (dr cp : Bool) (fs : FS) (r : TrackRecord)
    (h : r.file_path = target_path_for r d) :
    recordStep d dr cp fs r = (RecOutcome.skipped, fs) := by
  simp [recordStep, h]

lemma recordOutcomes_all_skipped (d : FPath) (dr cp : Bool) :
    ∀ (records : List TrackRecord) (fs : FS),
      (∀ r ∈ records, r.file_path = target_path_for r d) →
      recordOutcomes d dr cp fs records
        = List.replicate records.length RecOutcome.skipped := by
  intro records
  induction records with
  | nil => intro fs _; simp [recordOutcomes]
  | cons r rest ih =>
    intro fs h
    rw [show recordOutcomes d dr cp fs (r :: rest)
        = (recordStep d dr cp fs r).1
            :: recordOutcomes d dr cp (recordStep d dr cp fs r).2 rest from rfl]
    rw [recordStep_same_path d dr cp fs r (h r (List.mem_cons_self r rest))]
    simp only [List.length_cons, List.replicate_succ]
    rw [ih fs (fun x hx => h x (List.mem_cons_of_mem r hx))]

lemma filter_replicate_outcome (p : RecOutcome → Bool) (n : Nat) (o : RecOutcome) :
    (List.replicate n o).filter p = if p o then List.replicate n o else [] := by
  induction n with
  | zero => simp
  | succ k ih =>
    rw [List.replicate_succ, List.filter_cons, ih]
    cases h : p o <;> simp [h, List.replicate_succ]

/-! ### Claim theorems -/

/-- C1 (amended): in dry-run mode neither pass copies, moves or deletes any
file — the set of regular files is untouched by both `organize_files` and
`organize_sidecar_files`.  (Directories may still be created: the record
loop runs `mkdir` before the dry-run guard, see the counterexample.) -/
theorem organize_dry_run_preserves_files (records : List TrackRecord)
    (droot : FPath) (cp : Bool) (fs : FS) (root : FPath) :
    (organize_files records droot true cp fs).1.files = fs.files ∧
    (organize_sidecar_files root droot true cp fs).1.files = fs.files := by
  constructor
  · show (move_sidecar_candidates _ _ _ _ _ _ _).fs.files = fs.files
    rw [move_sidecar_dry_files]
    exact recordLoop_dry_files droot cp records.length records _
  · show (move_sidecar_candidates _ _ _ _ _ _ _).fs.files = fs.files
    rw [move_sidecar_dry_files]

/-- C1 (counterexample): a dry run of `organize_files` does modify the
filesystem — it creates the target parent directory `/out/Pink Floyd`,
which did not exist before, because `mkdir` runs before the dry-run guard
(organizer.py line 245). -/
theorem organize_dry_run_creates_directory :
    ["out", "Pink Floyd"] ∈ (organize_files [exRec1, exRec2] ["out"] true false exFs).1.dirs
      ∧ ["out", "Pink Floyd"] ∉ exFs.dirs := by decide

/-- C2: when the record-loop trace consists of successful moves except for a
single record whose target-directory creation fails with a permission
error, the batch completes, the moved count is `N - 1`, and the record-loop
warnings of the result are exactly the one warning naming that record's
relative path. -/
theorem organize_partial_failure_isolation (records : List TrackRecord)
    (droot : FPath) (dr cp : Bool) (fs : FS) (pre post : List RecOutcome)
    (rel : String) (q : FPath)
    (h : recordOutcomes droot dr cp fs records
        = pre ++ RecOutcome.warned (recordWarn rel (PyErr.permission q)) :: post)
    (hpre : ∀ o ∈ pre, outcomeIsMoved o = true)
    (hpost : ∀ o ∈ post, outcomeIsMoved o = true) :
    (organize_files records droot dr cp fs).2.1.moved = records.length - 1 ∧
    ((organize_files records droot dr cp fs).2.1.warnings).filter isRecordSkipWarn
      = [recordWarn rel (PyErr.permission q)] := by
  obtain ⟨hm, hsk, hw, hp⟩ := organize_files_results records droot dr cp fs
  have hlen : records.length = pre.length + post.length + 1 := by
    have hl := recordOutcomes_length droot dr cp records fs
    rw [h] at hl
    simp at hl
    omega
  constructor
  · rw [hm, h, List.filter_append, List.filter_cons]
    have hpre2 : pre.filter outcomeIsMoved = pre := List.filter_eq_self.mpr hpre
    have hpost2 : post.filter outcomeIsMoved = post := List.filter_eq_self.mpr hpost
    simp only [outcomeIsMoved, Bool.false_eq_true, if_false, hpre2, hpost2,
      List.length_append]
    omega
  · rw [hw, h, List.filterMap_append, List.filterMap_cons]
    have hpre0 : pre.filterMap outcomeWarning = [] := by
      apply List.filterMap_eq_nil.mpr
      intro o ho
      cases o with
      | skipped => rfl
      | moved sp dp => rfl
      | warned w => have := hpre _ ho; simp [outcomeIsMoved] at this
    have hpost0 : post.filterMap outcomeWarning = [] := by
      apply List.filterMap_eq_nil.mpr
      intro o ho
      cases o with
      | skipped => rfl
      | moved sp dp => rfl
      | warned w => have := hpost _ ho; simp [outcomeIsMoved] at this
    simp [outcomeWarning, hpre0, hpost0]

/-- C2 (witness): three records of which the middle one hits a denied
target directory: moved is 2 and the record-loop warnings are exactly the
permission warning for `b.mp3`. -/
theorem organize_partial_failure_isolation_witness :
    (organize_files [exRecA, exRecB, exRecC] ["out"] false false exFsDenied).2.1.moved
        = ([exRecA, exRecB, exRecC] : List TrackRecord).length - 1 ∧
    ((organize_files [exRecA, exRecB, exRecC] ["out"] false false
        exFsDenied).2.1.warnings).filter isRecordSkipWarn
      = [recordWarn "b.mp3" (PyErr.permission ["out", "B", "AlbB"])] :=
  organize_partial_failure_isolation [exRecA, exRecB, exRecC] ["out"] false false
    exFsDenied
    [RecOutcome.moved ["src"] ["out", "A", "AlbA"]]
    [RecOutcome.moved ["src"] ["out", "C", "AlbC"]]
    "b.mp3" ["out", "B", "AlbB"]
    (by decide) (by decide) (by decide)

/-- C3 (counterexample): running `organize_files` twice in apply mode on the
same list of records does not report `skipped = len(records)`: after the
first run moved the files, the records still point at the old locations, so
the second run reports `skipped = 0` (and a warning per record), not 2. -/
theorem organize_second_run_skips_nothing :
    (organize_files [exRec1, exRec2] ["out"] false false
        (organize_files [exRec1, exRec2] ["out"] false false exFs).1).2.1.skipped = 0 ∧
    (organize_files [exRec1, exRec2] ["out"] false false
        (organize_files [exRec1, exRec2] ["out"] false false exFs).1).2.1.moved = 0 ∧
    (0 : Nat) ≠ ([exRec1, exRec2] : List TrackRecord).length := by decide

/-- C3 (amended): the second run reports `moved = 0` and
`skipped = len(records)` exactly when the records point at their canonical
targets (as they do after a re-scan of the reorganized tree): step 1 then
recognizes every file as already located at its canonical target path. -/
theorem organize_idempotent_on_repointed_records (records : List TrackRecord)
    (droot : FPath) (dr cp : Bool) (fs : FS)
    (h : ∀ r ∈ records, r.file_path = target_path_for r droot) :
    (organize_files records droot dr cp fs).2.1.moved = 0 ∧
    (organize_files records droot dr cp fs).2.1.skipped = records.length := by
  obtain ⟨hm, hsk, _, _⟩ := organize_files_results records droot dr cp fs
  have hocs := recordOutcomes_all_skipped droot dr cp records fs h
  constructor
  · rw [hm, hocs, filter_replicate_outcome]
    simp [outcomeIsMoved]
  · rw [hsk, hocs, filter_replicate_outcome]
    simp [outcomeIsSkipped]

/-- C3 (witness): a single record already at its canonical target is
skipped and not moved. -/
theorem organize_idempotent_on_repointed_records_witness :
    (organize_files [⟨["out", "A", "B", "x.mp3"], "x.mp3", "A", "B"⟩] ["out"]
        false false exFs).2.1.moved = 0 ∧
    (organize_files [⟨["out", "A", "B", "x.mp3"], "x.mp3", "A", "B"⟩] ["out"]
        false false exFs).2.1.skipped
      = ([⟨["out", "A", "B", "x.mp3"], "x.mp3", "A", "B"⟩] : List TrackRecord).length :=
  organize_idempotent_on_repointed_records _ ["out"] false false exFs (by decide)

/-- C4 (witness): on a filesystem where `/x/a.mp3` and `/x/a (1).mp3`
exist, the probe returns a non-existing path, and on an empty filesystem a
path is returned unchanged. -/
theorem non_colliding_path_spec_witness :
    FS.pathExists ⟨[["x", "a.mp3"], ["x", "a (1).mp3"]], [["x"]], []⟩
        (non_colliding_path ⟨[["x", "a.mp3"], ["x", "a (1).mp3"]], [["x"]], []⟩
          ["x", "a.mp3"]) = false ∧
    non_colliding_path ⟨[], [], []⟩ ["x", "b.mp3"] = ["x", "b.mp3"] :=
  ⟨(non_colliding_path_spec ⟨[["x", "a.mp3"], ["x", "a (1).mp3"]], [["x"]], []⟩
      ["x", "a.mp3"]).1,
   (non_colliding_path_spec ⟨[], [], []⟩ ["x", "b.mp3"]).2.1 (by decide)⟩

/-- C5 (counterexample): with the record `{artist: "", album: "",
file: "t2.mp3"}` handed directly to the primary pass, the file ends at
`/out/Unknown/Miscellaneous/t2.mp3` — not at the claimed
`/out/Unknown Artist/Miscellaneous/t2.mp3` (`sanitize_name ""` is
`"Unknown"`; the `"Unknown Artist"` normalization happens in the scanner,
not in the organizer). -/
theorem end_to_end_artist_fallback_counterexample :
    ["out", "Unknown", "Miscellaneous", "t2.mp3"]
        ∈ (organize_files [exRec1, exRec2] ["out"] false false exFs).1.files ∧
    ["out", "Unknown Artist", "Miscellaneous", "t2.mp3"]
        ∉ (organize_files [exRec1, exRec2] ["out"] false false exFs).1.files := by decide

/-- C5 (amended): the end-to-end scenario in apply mode with move semantics
relocates the two files to `/out/Pink Floyd/The Wall/t1.flac` and
`/out/Unknown/Miscellaneous/t2.mp3` and reports `moved = 2`,
`skipped = 0`. -/
theorem end_to_end_scenario :
    (organize_files [exRec1, exRec2] ["out"] false false exFs).1.files
      = [["out", "Pink Floyd", "The Wall", "t1.flac"],
         ["out", "Unknown", "Miscellaneous", "t2.mp3"]] ∧
    (organize_files [exRec1, exRec2] ["out"] false false exFs).2.1.moved = 2 ∧
    (organize_files [exRec1, exRec2] ["out"] false false exFs).2.1.skipped = 0 := by
  decide

/-- C7: for a sidecar-bearing directory absent from the source-to-destination
map, the pattern guess yields a destination exactly when the directory name
splits at the first `" - "` into an artist and an album half (the album
half cleaned of trailing bracketed groups, both halves sanitized) and
`destination_root/artist/album` already exists; when the guess fails, the
relocation pass emits one "directory unmapped" warning, relocates nothing,
and leaves the filesystem untouched. -/
theorem sidecar_guess_and_unmapped (fs : FS) (srcDir destRoot : FPath)
    (files : List FPath) (sourceToDest : List (FPath × FPath)) (dr cp : Bool)
    (ws0 : List String) (hlookup : List.lookup srcDir sourceToDest = none) :
    (∀ dd : FPath,
      guess_destination_dir fs srcDir destRoot = some dd ↔
        ∃ a b, splitFirstSep (pathName srcDir) = some (a, b) ∧
          dd = destRoot ++ [sanitize_name a, sanitize_name (clean_album_dir_name b)] ∧
          fs.pathExists dd = true) ∧
    (guess_destination_dir fs srcDir destRoot = none →
      move_sidecar_candidates [(srcDir, files)] sourceToDest destRoot dr cp fs ws0
        = { fs := fs, sidecar_moved := 0,
            warnings := ws0 ++ [warnSidecar ("directory unmapped: " ++ pathStr srcDir)],
            files_done := files.length,
            progress := [(0, files.length), (files.length, files.length)] }) := by
  constructor
  · intro dd
    cases hsplit : splitFirstSep (pathName srcDir) with
    | none => simp [guess_destination_dir, hsplit]
    | some ab =>
      rcases ab with ⟨a, b⟩
      constructor
      · intro hg
        simp only [guess_destination_dir, hsplit] at hg
        by_cases hex : fs.pathExists
            (destRoot ++ [sanitize_name a, sanitize_name (clean_album_dir_name b)]) = true
        · rw [if_pos hex] at hg
          have hdd := Option.some.inj hg
          subst hdd
          exact ⟨a, b, rfl, rfl, hex⟩
        · rw [if_neg hex] at hg
          cases hg
      · rintro ⟨a2, b2, hab, hdd, hex⟩
        have hab2 := Option.some.inj hab
        have ha : a = a2 := congrArg Prod.fst hab2
        have hb : b = b2 := congrArg Prod.snd hab2
        subst ha
        subst hb
        subst hdd
        simp only [guess_destination_dir, hsplit]
        rw [if_pos hex]
  · intro hguess
    rw [move_sidecar_candidates]
    simp only [List.foldl_cons, List.foldl_nil]
    simp only [sideDirStep, hlookup, hguess]
    simp

/-- C7 (witness): the directory `/src/d` has no `" - "` in its name, so the
guess fails and its two sidecar files are skipped with a single unmapped
warning, the filesystem unchanged. -/
theorem sidecar_guess_and_unmapped_witness :
    move_sidecar_candidates [(["src", "d"], [["src", "d", "a.jpg"]])] [] ["out"]
        true false exFsUnmapped []
      = { fs := exFsUnmapped, sidecar_moved := 0,
          warnings := ["organize sidecar directory unmapped: /src/d"],
          files_done := 1, progress := [(0, 1), (1, 1)] } :=
  (sidecar_guess_and_unmapped exFsUnmapped ["src", "d"] ["out"]
      [["src", "d", "a.jpg"]] [] true false [] (by decide)).2 (by decide)

/-- C8 (amended): the tree-walk sidecar collection excludes the destination
root and every directory nested under it: no collected entry's directory —
and hence no collected candidate file's parent — is the destination root or
lies under it.  (The claim's universal form is false: when no scan root is
inferable, `organize_files` falls back to flat listing without this
exclusion, see the counterexample.) -/
theorem collect_excludes_destination_tree (fs : FS) (root droot : FPath) :
    ∀ e ∈ (collect_sidecar_files fs root droot).1,
      underOrEqual droot e.1 = false ∧
      ∀ f ∈ e.2, underOrEqual droot (pathParent f) = false := by
  intro e he
  by_cases hroot : root ∈ fs.dirs
  · rw [collect_sidecar_files, if_pos hroot] at he
    obtain ⟨cur, hcur, hf⟩ := List.mem_filterMap.mp he
    by_cases hu : underOrEqual droot cur = true
    · rw [if_pos hu] at hf
      cases hf
    · rw [if_neg hu] at hf
      by_cases hempty :
          ((filesIn fs cur).filter (fun c => is_sidecar_file fs c)).isEmpty = true
      · rw [if_pos hempty] at hf
        cases hf
      · rw [if_neg hempty] at hf
        have he2 := Option.some.inj hf
        subst he2
        refine ⟨Bool.eq_false_iff.mpr hu, ?_⟩
        intro f hfmem
        have h1 := List.mem_of_mem_filter hfmem
        have h2 := List.of_mem_filter h1
        have h3 : pathParent f = cur := by
          simpa [pathParent] using h2
        rw [h3]
        exact Bool.eq_false_iff.mpr hu
  · rw [collect_sidecar_files, if_neg hroot] at he
    by_cases hfile : root ∈ fs.files
    · rw [if_pos hfile] at he
      simp at he
    · rw [if_neg hfile] at he
      simp at he

/-- C8 (witness): the entry collected for `/src/d` lies outside the
destination root `/out`, and so do its candidate files' parents. -/
theorem collect_excludes_destination_tree_witness :
    underOrEqual ["out"] ((["src", "d"], [["src", "d", "a.jpg"],
        ["src", "d", "b.txt"]]) : FPath × List FPath).1 = false ∧
    ∀ f ∈ ((["src", "d"], [["src", "d", "a.jpg"], ["src", "d", "b.txt"]])
        : FPath × List FPath).2,
      underOrEqual ["out"] (pathParent f) = false :=
  collect_excludes_destination_tree exFsUnmapped ["src"] ["out"]
    (["src", "d"], [["src", "d", "a.jpg"], ["src", "d", "b.txt"]]) (by decide)

/-- C8 (counterexample): with no inferable scan root, the primary pass's
flat fallback listing classifies and relocates a sidecar file that lives
inside the destination root's own tree: `/out/stuff/cover.jpg` is moved to
`/out/A/B/cover.jpg`. -/
theorem sidecar_inside_destination_moved :
    (organize_files [exRecInDest] ["out"] false false exFsInDest).2.1.sidecar_moved = 1 ∧
    ["out", "A", "B", "cover.jpg"]
        ∈ (organize_files [exRecInDest] ["out"] false false exFsInDest).1.files ∧
    underOrEqual ["out"] (pathParent ["out", "stuff", "cover.jpg"]) = true := by decide

/-- C9 (counterexample): for an unmapped sidecar directory holding two
files, the progress callback trace is `[(0, 2), (2, 2)]` — the pair `(1, 2)`
is never reported, contradicting the claim that the callback fires once
with `(i, n)` for every `i` from 1 to `n`. -/
theorem sidecar_progress_trace_counterexample :
    (organize_sidecar_files ["src"] ["out"] true false exFsUnmapped).2.2
        = [(0, 2), (2, 2)] ∧
    (1, 2) ∉ (organize_sidecar_files ["src"] ["out"] true false exFsUnmapped).2.2 := by
  decide

/-- C9 (amended): the record loop of `organize_files` reports progress
`(0, n)` first and `(i, n)` after the i-th record for every `i` from 1 to
`n` — including skipped and warned records; the trace may be just `[(0, 0)]`
when there are no records.  (The sidecar passes behave differently: an
unmapped directory reports one jump for its whole batch, and
`organize_files` does not forward the callback to its sidecar sub-pass.) -/
theorem organize_progress_trace (records : List TrackRecord) (droot : FPath)
    (dr cp : Bool) (fs : FS) :
    (organize_files records droot dr cp fs).2.2
      = (0, records.length)
          :: (List.range records.length).map (fun i => (i + 1, records.length)) :=
  (organize_files_results records droot dr cp fs).2.2.2

/-- C10: every record contributes exactly one of the three outcomes — moved,
skipped, or a single record-loop warning — so the moved and skipped counts
plus the number of record-loop warnings equal the number of records, and
all counts of the result are non-negative. -/
theorem organize_result_partition (records : List TrackRecord) (droot : FPath)
    (dr cp : Bool) (fs : FS) :
    (organize_files records droot dr cp fs).2.1.moved
        = ((recordOutcomes droot dr cp fs records).filter outcomeIsMoved).length ∧
    (organize_files records droot dr cp fs).2.1.skipped
        = ((recordOutcomes droot dr cp fs records).filter outcomeIsSkipped).length ∧
    ((organize_files records droot dr cp fs).2.1.warnings).filter isRecordSkipWarn
        = (recordOutcomes droot dr cp fs records).filterMap outcomeWarning ∧
    (organize_files records droot dr cp fs).2.1.moved
        + (organize_files records droot dr cp fs).2.1.skipped
        + (((organize_files records droot dr cp fs).2.1.warnings).filter
            isRecordSkipWarn).length
      = records.length ∧
    0 ≤ (organize_files records droot dr cp fs).2.1.moved ∧
    0 ≤ (organize_files records droot dr cp fs).2.1.skipped ∧
    0 ≤ (organize_files records droot dr cp fs).2.1.sidecar_moved := by
  obtain ⟨hm, hsk, hw, _⟩ := organize_files_results records droot dr cp fs
  refine ⟨hm, hsk, hw, ?_, Nat.zero_le _, Nat.zero_le _, Nat.zero_le _⟩
  rw [hm, hsk, hw]
  have hpart := outcome_partition (recordOutcomes droot dr cp fs records)
  rw [recordOutcomes_length droot dr cp records fs] at hpart
  exact hpart
